import Mathlib

/-!
Verification of the Flask ToDo service (src/app.py) against its
natural-language specification.

The embedding is shallow: JSON values become an inductive type, the
in-memory `todos` dict becomes an insertion-ordered association list from
integer id to record, the global `next_id` counter is a field of the state,
and each route handler becomes a Lean function from request data and state
to a response and a new state.  Handlers that can raise an uncaught Python
exception (a `TypeError` from `'title' in None`, or a JSON parse fault
inside `request.get_json()`) return `Except Unit`; `Except.error` marks the
uncaught exception.  Python float arithmetic in `get_stats` is modelled
with exact rationals.
-/

/-- A JSON value as stored in the Python dicts.  Arrays and nested objects
are not needed by any handler of app.py, so scalar values suffice. -/
inductive Json where
  | null : Json
  | bool (b : Bool) : Json
  | num (q : ℚ) : Json
  | str (s : String) : Json
deriving DecidableEq, Repr

/-- Python truthiness of a JSON value, as used by
`if todo['completed']` in `get_stats`: `None`, `False`, `0` and the empty
string are falsy, everything else is truthy. -/
def Json.truthy : Json → Bool
  | .null => false
  | .bool b => b
  | .num q => q != 0
  | .str s => s != ""

/-- A point in time, standing for a Python `datetime` value. -/
structure Datetime where
  year : Nat
  month : Nat
  day : Nat
  hour : Nat
  minute : Nat
  second : Nat
  microsecond : Nat
deriving DecidableEq, Repr

/-- Zero-pad the decimal rendering of `n` to width `w`, as Python does
inside `datetime.isoformat`. -/
def padNum (w n : Nat) : String :=
  let s := toString n
  String.mk (List.replicate (w - s.length) '0') ++ s

/-- `datetime.isoformat()`: `YYYY-MM-DDTHH:MM:SS` followed by
`.ffffff` when the microsecond field is nonzero. -/
def Datetime.isoformat (d : Datetime) : String :=
  padNum 4 d.year ++ "-" ++ padNum 2 d.month ++ "-" ++ padNum 2 d.day ++ "T" ++
    padNum 2 d.hour ++ ":" ++ padNum 2 d.minute ++ ":" ++ padNum 2 d.second ++
    (if d.microsecond = 0 then "" else "." ++ padNum 6 d.microsecond)

/-- One todo record, the value stored in the `todos` dict.  `title` and
`completed` hold whatever JSON value the handlers stored there (app.py
never type-checks them on update), `created_at` is the `isoformat` string
set at creation. -/
structure Todo where
  id : Nat
  title : Json
  completed : Json
  created_at : String
deriving DecidableEq, Repr

/-- The process state of app.py: the insertion-ordered `todos` dict as an
association list from id to record, and the global `next_id` counter. -/
structure AppState where
  todos : List (Nat × Todo)
  next_id : Nat
deriving DecidableEq, Repr

/-- Dict lookup `todos[i]` made total: the first entry with key `i`,
if any (Python dicts have unique keys). -/
def findTodo (l : List (Nat × Todo)) (i : Nat) : Option Todo :=
  (l.find? (fun p => p.1 == i)).map (fun p => p.2)

/-- In-place mutation `todos[i].field = v`: rewrite the record stored at
key `i`, leaving every other entry and the insertion order unchanged. -/
def setEntry (l : List (Nat × Todo)) (i : Nat) (f : Todo → Todo) : List (Nat × Todo) :=
  l.map (fun p => if p.1 == i then (p.1, f p.2) else p)

/-- Dict removal `todos.pop(i)`: drop the (unique) entry with key `i`. -/
def eraseEntry (l : List (Nat × Todo)) (i : Nat) : List (Nat × Todo) :=
  l.eraseP (fun p => p.1 == i)

/-- `'k' in data` on a parsed JSON object. -/
def hasKey (d : List (String × Json)) (k : String) : Bool :=
  d.any (fun p => p.1 == k)

/-- `data['k']` on a parsed JSON object, made total; the handlers only
read it after a `hasKey` check, so the `.null` default is never produced. -/
def getVal (d : List (String × Json)) (k : String) : Json :=
  match d.find? (fun p => p.1 == k) with
  | some p => p.2
  | none => Json.null

/-- The JSON body a handler serializes with `jsonify`. -/
inductive RespBody where
  | todoJson (t : Todo) : RespBody
  | listJson (l : List Todo) : RespBody
  | errJson (msg : String) : RespBody
  | statsJson (total completed pending : Nat) (rate : ℚ) : RespBody
deriving DecidableEq, Repr

/-- Whether the response body is an object with an `error` field. -/
def RespBody.hasError : RespBody → Bool
  | .errJson _ => true
  | _ => false

/-- An HTTP response: JSON body plus status code, the `(jsonify(...), code)`
pair each handler returns. -/
structure Response where
  body : RespBody
  status : Nat
deriving DecidableEq, Repr

/-- The outcome of `request.get_json()` as seen by a handler:
`fault` – the body is malformed JSON and parsing raises;
`noBody` – `get_json` returns `None` (no usable body);
`dict d` – a parsed JSON object with fields `d`. -/
inductive JsonBody where
  | fault : JsonBody
  | noBody : JsonBody
  | dict (d : List (String × Json)) : JsonBody
deriving DecidableEq, Repr

/-- `GET /api/todos` – `get_todos` in app.py: `list(todos.values())`. -/
def get_todos (s : AppState) : Response :=
  ⟨.listJson (s.todos.map (fun p => p.2)), 200⟩

/-- `GET /api/todos/stats` – `get_stats` in app.py.  `completed` counts the
records whose `completed` value is truthy, `completion_rate` is
`completed / total * 100` when `total > 0`, else `0` (rationals model the
Python float division). -/
def get_stats (s : AppState) : Response :=
  let total := s.todos.length
  let completed := s.todos.countP (fun p => p.2.completed.truthy)
  let pending := total - completed
  ⟨.statsJson total completed pending
      (if total > 0 then (completed : ℚ) / (total : ℚ) * 100 else 0), 200⟩

/-- `POST /api/todos` – `create_todo` in app.py.  A parse fault in
`get_json` propagates (`Except.error`).  `not data or 'title' not in data`
rejects a `None` body, an empty object, and an object without a `title`
key with 400; otherwise the record is built with id `next_id`, a verbatim
`title`, `completed = False` and `created_at = now.isoformat()`, inserted,
and the counter incremented. -/
def create_todo (now : Datetime) (body : JsonBody) (s : AppState) :
    Except Unit (Response × AppState) :=
  match body with
  | .fault => .error ()
  | .noBody => .ok (⟨.errJson "Title is required", 400⟩, s)
  | .dict d =>
      if d.isEmpty || !(hasKey d "title") then
        .ok (⟨.errJson "Title is required", 400⟩, s)
      else
        let todo : Todo := ⟨s.next_id, getVal d "title", .bool false, now.isoformat⟩
        .ok (⟨.todoJson todo, 201⟩, ⟨s.todos ++ [(s.next_id, todo)], s.next_id + 1⟩)

/-- `GET /api/todos/(id)` – `get_todo` in app.py. -/
def get_todo (todo_id : Nat) (s : AppState) : Response :=
  match findTodo s.todos todo_id with
  | none => ⟨.errJson "Todo not found", 404⟩
  | some t => ⟨.todoJson t, 200⟩

/-- `PUT /api/todos/(id)` – `update_todo` in app.py.  The 404 check comes
before `get_json`.  With a parse fault `get_json` raises; with a `None`
body, `'title' in data` raises `TypeError`; both are `Except.error`.
Otherwise exactly the fields present in the body (`title`, `completed`)
are written, verbatim, and the record now stored at the id is returned. -/
def update_todo (todo_id : Nat) (body : JsonBody) (s : AppState) :
    Except Unit (Response × AppState) :=
  match findTodo s.todos todo_id with
  | none => .ok (⟨.errJson "Todo not found", 404⟩, s)
  | some _ =>
      match body with
      | .fault => .error ()
      | .noBody => .error ()
      | .dict d =>
          let s1 : AppState := if hasKey d "title" then
              ⟨setEntry s.todos todo_id (fun t => { t with title := getVal d "title" }),
                s.next_id⟩
            else s
          let s2 : AppState := if hasKey d "completed" then
              ⟨setEntry s1.todos todo_id (fun t => { t with completed := getVal d "completed" }),
                s1.next_id⟩
            else s1
          match findTodo s2.todos todo_id with
          | some t => .ok (⟨.todoJson t, 200⟩, s2)
          | none => .error ()

/-- `DELETE /api/todos/(id)` – `delete_todo` in app.py:
`deleted = todos.pop(todo_id)` and the removed record is returned. -/
def delete_todo (todo_id : Nat) (s : AppState) : Response × AppState :=
  match findTodo s.todos todo_id with
  | none => (⟨.errJson "Todo not found", 404⟩, s)
  | some t => (⟨.todoJson t, 200⟩, ⟨eraseEntry s.todos todo_id, s.next_id⟩)

/-- The registered `errorhandler(500)` – `server_error` in app.py. -/
def server_error : Response :=
  ⟨.errJson "Internal server error", 500⟩

/-- Modelled from the spec: the outermost request-handling boundary.  The
web framework that dispatches to the handlers is not part of src/; per the
spec, any failure a handler does not convert itself "must be caught at the
outermost request-handling boundary and converted to the 500 response
rather than crashing the process", using the registered 500 handler
(`server_error`, which is in src/).  The store is left as it was. -/
def dispatch (s : AppState) (r : Except Unit (Response × AppState)) :
    Response × AppState :=
  match r with
  | .ok x => x
  | .error _ => (server_error, s)

/-- The seeded module-level state of app.py: records 1 and 2 (titles from
the source, `completed = False`, `created_at` from the two `datetime.now()`
calls at import), and `next_id = 3`. -/
def initialState (t1 t2 : Datetime) : AppState :=
  { todos := [(1, ⟨1, .str "Learn GitHub Actions", .bool false, t1.isoformat⟩),
              (2, ⟨2, .str "Build CI/CD pipeline", .bool false, t2.isoformat⟩)],
    next_id := 3 }

/-- One incoming API request. -/
inductive Op where
  | create (now : Datetime) (body : JsonBody) : Op
  | update (id : Nat) (body : JsonBody) : Op
  | delete (id : Nat) : Op
  | getOne (id : Nat) : Op
  | getAll : Op
  | stats : Op
deriving DecidableEq, Repr

/-- Observable id events of a request: a successful create assigns the
new record's id, a successful delete removes an id. -/
inductive Event where
  | assigned (id : Nat) : Event
  | deleted (id : Nat) : Event
deriving DecidableEq, Repr

/-- The id an event mentions. -/
def evId : Event → Nat
  | .assigned i => i
  | .deleted i => i

/-- Serve one request (through `dispatch`, so an uncaught handler failure
leaves the store unchanged), returning the next state and the id events. -/
def stepEv (s : AppState) (op : Op) : AppState × List Event :=
  match op with
  | .create now body =>
      match create_todo now body s with
      | .ok (r, s1) =>
          match r.body with
          | .todoJson t => if r.status == 201 then (s1, [.assigned t.id]) else (s1, [])
          | _ => (s1, [])
      | .error _ => (s, [])
  | .update i body =>
      match update_todo i body s with
      | .ok (_, s1) => (s1, [])
      | .error _ => (s, [])
  | .delete i =>
      let r := delete_todo i s
      if r.1.status == 200 then (r.2, [.deleted i]) else (r.2, [])
  | .getOne _ => (s, [])
  | .getAll => (s, [])
  | .stats => (s, [])

/-- Serve a request, keeping only the state. -/
def step (s : AppState) (op : Op) : AppState :=
  (stepEv s op).1

/-- Serve a sequence of requests, collecting all id events in order. -/
def runEv (s : AppState) : List Op → AppState × List Event
  | [] => (s, [])
  | op :: ops =>
      let r1 := stepEv s op
      let r2 := runEv r1.1 ops
      (r2.1, r1.2 ++ r2.2)

/-- Serve a sequence of requests, keeping only the final state. -/
def run (s : AppState) (ops : List Op) : AppState :=
  (runEv s ops).1

/-- Store well-formedness: every entry's key is below the counter and
equals the record's `id` field, and keys are pairwise distinct (as in a
Python dict). -/
def StoreWF (s : AppState) : Prop :=
  (∀ p ∈ s.todos, p.1 < s.next_id ∧ p.2.id = p.1) ∧
    (s.todos.map (fun p => p.1)).Nodup

/-- Freshness of assigned ids along an event trace: every id assigned by a
create is strictly greater than every id any earlier event mentions.  This
gives strict increase of successive assigned ids, their uniqueness, and
that a deleted id is never assigned again. -/
def FreshAssign (evs : List Event) : Prop :=
  evs.Pairwise (fun e e' => (∃ b, e' = .assigned b) → evId e < evId e')

/-- The ids assigned by the successful creates of a trace, in order. -/
def assignedIds (evs : List Event) : List Nat :=
  evs.filterMap (fun e => match e with | .assigned i => some i | .deleted _ => none)

/-- The record produced by `update_todo`'s two field writes on one record:
exactly the fields present in the body are overwritten. -/
def applyFields (d : List (String × Json)) (t : Todo) : Todo :=
  let t1 := if hasKey d "title" then { t with title := getVal d "title" } else t
  if hasKey d "completed" then { t1 with completed := getVal d "completed" } else t1

/-- A concrete timestamp used to instantiate theorems on concrete states. -/
def dEx : Datetime := ⟨2024, 1, 1, 12, 0, 0, 0⟩

/-- The seeded state at the concrete timestamp `dEx`. -/
def sEx : AppState := initialState dEx dEx

/-! ### Association-list lemmas -/

theorem findTodo_cons (p : Nat × Todo) (l : List (Nat × Todo)) (i : Nat) :
    findTodo (p :: l) i = if p.1 == i then some p.2 else findTodo l i := by
  by_cases h : p.1 == i
  · simp [findTodo, List.find?_cons_of_pos, h]
  · simp [findTodo, List.find?_cons_of_neg, h]

theorem findTodo_setEntry_self (l : List (Nat × Todo)) (i : Nat) (f : Todo → Todo) :
    findTodo (setEntry l i f) i = (findTodo l i).map f := by
  induction l with
  | nil => rfl
  | cons p l ih =>
      by_cases h : p.1 = i
      · simp [setEntry, findTodo_cons, h]
      · simpa [setEntry, findTodo_cons, h] using ih

theorem setEntry_cons (p : Nat × Todo) (l : List (Nat × Todo)) (i : Nat) (f : Todo → Todo) :
    setEntry (p :: l) i f = (if p.1 == i then (p.1, f p.2) else p) :: setEntry l i f := rfl

theorem eraseEntry_cons (p : Nat × Todo) (l : List (Nat × Todo)) (i : Nat) :
    eraseEntry (p :: l) i = if p.1 == i then l else p :: eraseEntry l i := by
  by_cases h : p.1 = i <;> simp [eraseEntry, List.eraseP_cons, h]

theorem findTodo_setEntry_ne (l : List (Nat × Todo)) (i j : Nat) (f : Todo → Todo)
    (h : j ≠ i) : findTodo (setEntry l i f) j = findTodo l j := by
  induction l with
  | nil => rfl
  | cons p l ih =>
      have hij : ¬ i = j := fun e => h e.symm
      by_cases hp : p.1 = i
      · simp [setEntry_cons, hp, findTodo_cons, hij, ih]
      · by_cases hq : p.1 = j
        · simp [setEntry_cons, findTodo_cons, hp, hq, h]
        · simp [setEntry_cons, findTodo_cons, hp, hq, ih]

theorem findTodo_eq_none (l : List (Nat × Todo)) (i : Nat)
    (h : i ∉ l.map (fun p => p.1)) : findTodo l i = none := by
  induction l with
  | nil => rfl
  | cons p l ih =>
      simp only [List.map_cons, List.mem_cons, not_or] at h
      have hp : ¬ p.1 = i := fun e => h.1 e.symm
      simp [findTodo_cons, hp, ih h.2]

theorem findTodo_eraseEntry_ne (l : List (Nat × Todo)) (i j : Nat) (h : j ≠ i) :
    findTodo (eraseEntry l i) j = findTodo l j := by
  induction l with
  | nil => rfl
  | cons p l ih =>
      have hij : ¬ i = j := fun e => h e.symm
      by_cases hp : p.1 = i
      · simp [eraseEntry_cons, hp, findTodo_cons, hij]
      · simp [eraseEntry_cons, hp, findTodo_cons, ih]

theorem findTodo_eraseEntry_self (l : List (Nat × Todo)) (i : Nat)
    (h : (l.map (fun p => p.1)).Nodup) : findTodo (eraseEntry l i) i = none := by
  induction l with
  | nil => rfl
  | cons p l ih =>
      simp only [List.map_cons, List.nodup_cons] at h
      by_cases hp : p.1 = i
      · simp only [eraseEntry_cons, hp, beq_self_eq_true, if_true]
        exact findTodo_eq_none l i (hp ▸ h.1)
      · simp [eraseEntry_cons, hp, findTodo_cons, ih h.2]

theorem findTodo_append_fresh (l : List (Nat × Todo)) (i : Nat) (t : Todo)
    (h : ∀ p ∈ l, p.1 ≠ i) : findTodo (l ++ [(i, t)]) i = some t := by
  induction l with
  | nil => simp [findTodo_cons]
  | cons p l ih =>
      have hp : p.1 ≠ i := h p (by simp)
      simp only [List.cons_append, findTodo_cons, hp, beq_iff_eq, if_neg hp]
      exact ih (fun q hq => h q (by simp [hq]))

theorem findTodo_append_ne (l : List (Nat × Todo)) (i j : Nat) (t : Todo)
    (h : j ≠ i) : findTodo (l ++ [(i, t)]) j = findTodo l j := by
  induction l with
  | nil => simp [findTodo_cons, findTodo, Ne.symm h]
  | cons p l ih =>
      by_cases hp : p.1 = j
      · simp [findTodo_cons, hp]
      · simp [findTodo_cons, hp, ih]

theorem findTodo_mem (l : List (Nat × Todo)) (i : Nat) (t : Todo)
    (h : findTodo l i = some t) : (i, t) ∈ l ∧ i ∈ l.map (fun p => p.1) := by
  rcases hfind : l.find? (fun q => q.1 == i) with _ | q
  · simp [findTodo, hfind] at h
  · have hq : q ∈ l := List.mem_of_find?_eq_some hfind
    have hkey : q.1 = i := by simpa using List.find?_some hfind
    have ht : q.2 = t := by simpa [findTodo, hfind] using h
    constructor
    · have : q = (i, t) := by
        rcases q with ⟨a, b⟩; simp_all
      exact this ▸ hq
    · exact hkey ▸ List.mem_map_of_mem (fun p => p.1) hq

theorem findTodo_isSome_of_mem (l : List (Nat × Todo)) (i : Nat)
    (h : i ∈ l.map (fun p => p.1)) : ∃ t, findTodo l i = some t := by
  induction l with
  | nil => simp at h
  | cons p l ih =>
      by_cases hp : p.1 = i
      · exact ⟨p.2, by simp [findTodo_cons, hp]⟩
      · have h2 : i ∈ l.map (fun p => p.1) := by
          simp only [List.map_cons, List.mem_cons] at h
          rcases h with h1 | h1
          · exact absurd h1.symm hp
          · exact h1
        rcases ih h2 with ⟨t, ht⟩
        exact ⟨t, by simp [findTodo_cons, hp, ht]⟩

theorem setEntry_keys (l : List (Nat × Todo)) (i : Nat) (f : Todo → Todo) :
    (setEntry l i f).map (fun p => p.1) = l.map (fun p => p.1) := by
  induction l with
  | nil => rfl
  | cons p l ih =>
      by_cases hp : p.1 = i
      · simp [setEntry_cons, hp, ih]
      · simp [setEntry_cons, hp, ih]

theorem setEntry_entry_mem (l : List (Nat × Todo)) (i : Nat) (f : Todo → Todo)
    (hf : ∀ u, (f u).id = u.id) (N : Nat)
    (h : ∀ p ∈ l, p.1 < N ∧ p.2.id = p.1) :
    ∀ p ∈ setEntry l i f, p.1 < N ∧ p.2.id = p.1 := by
  intro p hp
  rcases List.mem_map.mp hp with ⟨q, hq, rfl⟩
  rcases h q hq with ⟨h1, h2⟩
  by_cases hqi : (q.1 == i) = true
  · rw [if_pos hqi]
    exact ⟨h1, (hf q.2).trans h2⟩
  · rw [if_neg hqi]
    exact ⟨h1, h2⟩

/-! ### Characterization of `update_todo` on a present id and parsed body -/

theorem update_todo_dict_eq (todo_id : Nat) (d : List (String × Json)) (s : AppState)
    (t : Todo) (h : findTodo s.todos todo_id = some t) :
    ∃ l2 : List (Nat × Todo),
      update_todo todo_id (.dict d) s =
        .ok (⟨.todoJson (applyFields d t), 200⟩, ⟨l2, s.next_id⟩) ∧
      findTodo l2 todo_id = some (applyFields d t) ∧
      (∀ j, j ≠ todo_id → findTodo l2 j = findTodo s.todos j) ∧
      l2.map (fun p => p.1) = s.todos.map (fun p => p.1) ∧
      (∀ N, (∀ p ∈ s.todos, p.1 < N ∧ p.2.id = p.1) →
        ∀ p ∈ l2, p.1 < N ∧ p.2.id = p.1) := by
  cases hT : hasKey d "title" <;> cases hC : hasKey d "completed"
  · exact ⟨s.todos, by simp [update_todo, h, hT, hC, applyFields],
      by simp [h, applyFields, hT, hC], fun j hj => rfl, rfl, fun N hN => hN⟩
  · refine ⟨setEntry s.todos todo_id (fun u => { u with completed := getVal d "completed" }),
      ?_, ?_, ?_, ?_, ?_⟩
    · simp [update_todo, h, hT, hC, findTodo_setEntry_self, applyFields]
    · simp [findTodo_setEntry_self, h, applyFields, hT, hC]
    · exact fun j hj => findTodo_setEntry_ne _ _ _ _ hj
    · exact setEntry_keys _ _ _
    · exact fun N hN => setEntry_entry_mem _ _
        (fun u => { u with completed := getVal d "completed" }) (fun u => rfl) N hN
  · refine ⟨setEntry s.todos todo_id (fun u => { u with title := getVal d "title" }),
      ?_, ?_, ?_, ?_, ?_⟩
    · simp [update_todo, h, hT, hC, findTodo_setEntry_self, applyFields]
    · simp [findTodo_setEntry_self, h, applyFields, hT, hC]
    · exact fun j hj => findTodo_setEntry_ne _ _ _ _ hj
    · exact setEntry_keys _ _ _
    · exact fun N hN => setEntry_entry_mem _ _
        (fun u => { u with title := getVal d "title" }) (fun u => rfl) N hN
  · refine ⟨setEntry (setEntry s.todos todo_id (fun u => { u with title := getVal d "title" }))
      todo_id (fun u => { u with completed := getVal d "completed" }), ?_, ?_, ?_, ?_, ?_⟩
    · simp [update_todo, h, hT, hC, findTodo_setEntry_self, applyFields]
    · simp [findTodo_setEntry_self, h, applyFields, hT, hC]
    · intro j hj
      rw [findTodo_setEntry_ne _ _ _ _ hj, findTodo_setEntry_ne _ _ _ _ hj]
    · rw [setEntry_keys, setEntry_keys]
    · exact fun N hN => setEntry_entry_mem _ _
        (fun u => { u with completed := getVal d "completed" }) (fun u => rfl) N
        (setEntry_entry_mem _ _
          (fun u => { u with title := getVal d "title" }) (fun u => rfl) N hN)

/-! ### Field facts about `applyFields` -/

theorem applyFields_id (d : List (String × Json)) (t : Todo) :
    (applyFields d t).id = t.id := by
  unfold applyFields
  cases hasKey d "title" <;> cases hasKey d "completed" <;> simp

theorem applyFields_created_at (d : List (String × Json)) (t : Todo) :
    (applyFields d t).created_at = t.created_at := by
  unfold applyFields
  cases hasKey d "title" <;> cases hasKey d "completed" <;> simp

theorem applyFields_title (d : List (String × Json)) (t : Todo)
    (h : hasKey d "title" = false) : (applyFields d t).title = t.title := by
  unfold applyFields
  cases hasKey d "completed" <;> simp [h]

theorem applyFields_completed (d : List (String × Json)) (t : Todo)
    (h : hasKey d "completed" = false) : (applyFields d t).completed = t.completed := by
  unfold applyFields
  cases hT : hasKey d "title" <;> simp [h, hT]

/-! ### Claim C1 -/

/-- Claim C1 is false as stated: a create request whose title is present
but equal to the empty string is not rejected.  At the seeded state, the
body with `title = ""` yields a 201 response whose body is the new record
(not an error object), a record is added (store size 2 becomes 3), and the
id counter is incremented from 3 to 4. -/
theorem C1_empty_title_accepted :
    ∃ r s1, create_todo dEx (.dict [("title", .str "")]) sEx = .ok (r, s1) ∧
      r.status = 201 ∧ r.body.hasError = false ∧
      s1.todos.length = 3 ∧ sEx.todos.length = 2 ∧
      s1.next_id = 4 ∧ sEx.next_id = 3 :=
  ⟨_, _, rfl, rfl, rfl, rfl, rfl, rfl, rfl⟩

/-- Claim C1 (amended): for every create request whose title key is absent
— a `None` body, or a JSON object without a `title` field (including the
empty object) — the operation returns a 400 response whose body has an
error field, and the store is unchanged: the returned state is the input
state, so no record is added, the store size is the same, and the id
counter is not incremented.  (A present-but-empty title is accepted; see
the counterexample.) -/
theorem C1_create_missing_title (now : Datetime) (s : AppState) (body : JsonBody)
    (h : body = .noBody ∨ ∃ d, body = .dict d ∧ hasKey d "title" = false) :
    ∃ msg, create_todo now body s = .ok (⟨.errJson msg, 400⟩, s) ∧
      (RespBody.errJson msg).hasError = true := by
  rcases h with h | ⟨d, hb, hd⟩
  · subst h; exact ⟨"Title is required", rfl, rfl⟩
  · subst hb; exact ⟨"Title is required", by simp [create_todo, hd], rfl⟩

/-- Witness for `C1_create_missing_title` at the empty body and seeded state. -/
theorem C1_create_missing_title_witness :
    ∃ msg, create_todo dEx (.dict []) sEx = .ok (⟨.errJson msg, 400⟩, sEx) ∧
      (RespBody.errJson msg).hasError = true :=
  C1_create_missing_title dEx sEx (.dict []) (Or.inr ⟨[], rfl, rfl⟩)

/-! ### Claim C9 -/

/-- Claim C9: `update_todo` performs no type validation on `completed`.
For every id present in the store and every JSON value `v` (boolean or
not), updating with a body whose only field is `completed = v` succeeds
with status 200 and stores `v` verbatim in the record. -/
theorem C9_update_completed_verbatim (s : AppState) (todo_id : Nat) (t : Todo)
    (v : Json) (h : findTodo s.todos todo_id = some t) :
    ∃ l2, update_todo todo_id (.dict [("completed", v)]) s =
        .ok (⟨.todoJson { t with completed := v }, 200⟩, ⟨l2, s.next_id⟩) ∧
      findTodo l2 todo_id = some { t with completed := v } := by
  rcases update_todo_dict_eq todo_id [("completed", v)] s t h with ⟨l2, h1, h2, _, _, _⟩
  have ha : applyFields [("completed", v)] t = { t with completed := v } := rfl
  exact ⟨l2, ha ▸ h1, ha ▸ h2⟩

/-- Witness for `C9_update_completed_verbatim`: storing the non-boolean
string value `"yes"` into `completed` of the seeded record 1. -/
theorem C9_update_completed_verbatim_witness :
    ∃ l2, update_todo 1 (.dict [("completed", .str "yes")]) sEx =
        .ok (⟨.todoJson ⟨1, .str "Learn GitHub Actions", .str "yes", dEx.isoformat⟩, 200⟩,
          ⟨l2, sEx.next_id⟩) ∧
      findTodo l2 1 = some ⟨1, .str "Learn GitHub Actions", .str "yes", dEx.isoformat⟩ :=
  C9_update_completed_verbatim sEx 1
    ⟨1, .str "Learn GitHub Actions", .bool false, dEx.isoformat⟩ (.str "yes") rfl

/-! ### Claim C10 -/

/-- Claim C10: an update of a present id whose parsed JSON body contains
neither `title` nor `completed` (for instance the empty object) succeeds
with status 200, returns the existing record, and leaves the entire store
(records and counter) unchanged. -/
theorem C10_noop_update (s : AppState) (todo_id : Nat) (t : Todo)
    (d : List (String × Json)) (hT : hasKey d "title" = false)
    (hC : hasKey d "completed" = false) (h : findTodo s.todos todo_id = some t) :
    update_todo todo_id (.dict d) s = .ok (⟨.todoJson t, 200⟩, s) := by
  simp [update_todo, h, hT, hC]

/-- Witness for `C10_noop_update`: the empty body on seeded record 1. -/
theorem C10_noop_update_witness :
    update_todo 1 (.dict []) sEx =
      .ok (⟨.todoJson ⟨1, .str "Learn GitHub Actions", .bool false, dEx.isoformat⟩, 200⟩,
        sEx) :=
  C10_noop_update sEx 1 ⟨1, .str "Learn GitHub Actions", .bool false, dEx.isoformat⟩
    [] rfl rfl rfl

/-! ### Claim C4 -/

/-- Claim C4: for an id present in the store, `update_todo` with a parsed
body modifies only the fields present among `title` and `completed`:
`id` and `created_at` always keep their previous values, `title` and
`completed` keep theirs when absent from the body, every other record is
unchanged, and in particular a body of exactly `completed = true` changes
only the `completed` field. -/
theorem C4_update_frame (s : AppState) (todo_id : Nat) (t : Todo)
    (d : List (String × Json)) (h : findTodo s.todos todo_id = some t) :
    ∃ l2, update_todo todo_id (.dict d) s =
        .ok (⟨.todoJson (applyFields d t), 200⟩, ⟨l2, s.next_id⟩) ∧
      findTodo l2 todo_id = some (applyFields d t) ∧
      (applyFields d t).id = t.id ∧
      (applyFields d t).created_at = t.created_at ∧
      (hasKey d "title" = false → (applyFields d t).title = t.title) ∧
      (hasKey d "completed" = false → (applyFields d t).completed = t.completed) ∧
      (∀ j, j ≠ todo_id → findTodo l2 j = findTodo s.todos j) ∧
      (d = [("completed", .bool true)] →
        applyFields d t = { t with completed := .bool true }) := by
  rcases update_todo_dict_eq todo_id d s t h with ⟨l2, h1, h2, h3, _, _⟩
  refine ⟨l2, h1, h2, applyFields_id d t, applyFields_created_at d t,
    applyFields_title d t, applyFields_completed d t, h3, ?_⟩
  rintro rfl
  rfl

/-- Witness for `C4_update_frame`: marking seeded record 2 completed. -/
theorem C4_update_frame_witness :
    ∃ l2, update_todo 2 (.dict [("completed", .bool true)]) sEx =
        .ok (⟨.todoJson (applyFields [("completed", .bool true)]
            ⟨2, .str "Build CI/CD pipeline", .bool false, dEx.isoformat⟩), 200⟩,
          ⟨l2, sEx.next_id⟩) ∧
      findTodo l2 2 = some (applyFields [("completed", .bool true)]
          ⟨2, .str "Build CI/CD pipeline", .bool false, dEx.isoformat⟩) ∧
      (applyFields [("completed", .bool true)]
          ⟨2, .str "Build CI/CD pipeline", .bool false, dEx.isoformat⟩).id = 2 ∧
      (applyFields [("completed", .bool true)]
          ⟨2, .str "Build CI/CD pipeline", .bool false, dEx.isoformat⟩).created_at =
        dEx.isoformat ∧
      (hasKey [(("completed" : String), Json.bool true)] "title" = false →
        (applyFields [("completed", .bool true)]
            ⟨2, .str "Build CI/CD pipeline", .bool false, dEx.isoformat⟩).title =
          .str "Build CI/CD pipeline") ∧
      (hasKey [(("completed" : String), Json.bool true)] "completed" = false →
        (applyFields [("completed", .bool true)]
            ⟨2, .str "Build CI/CD pipeline", .bool false, dEx.isoformat⟩).completed =
          .bool false) ∧
      (∀ j, j ≠ 2 → findTodo l2 j = findTodo sEx.todos j) ∧
      ([(("completed" : String), Json.bool true)] = [(("completed" : String), Json.bool true)] →
        applyFields [("completed", .bool true)]
            ⟨2, .str "Build CI/CD pipeline", .bool false, dEx.isoformat⟩ =
          ⟨2, .str "Build CI/CD pipeline", .bool true, dEx.isoformat⟩) :=
  C4_update_frame sEx 2 ⟨2, .str "Build CI/CD pipeline", .bool false, dEx.isoformat⟩
    [("completed", .bool true)] rfl

/-! ### Claim C5 -/

theorem update_todo_not_found (todo_id : Nat) (body : JsonBody) (s : AppState)
    (hf : findTodo s.todos todo_id = none) :
    update_todo todo_id body s = .ok (⟨.errJson "Todo not found", 404⟩, s) := by
  cases body <;> simp [update_todo, hf]

/-- Claim C5: `get_todo`, `update_todo` and `delete_todo` return a 404
response with an `error` field if and only if the id is not in the store;
on 404 the store is unchanged (the returned state is the input state), and
on a present id they return status 200 (for `update_todo`, with any parsed
JSON body; an unparseable body on a present id raises instead of
answering, so it never produces a 404 either). -/
theorem C5_not_found (s : AppState) (todo_id : Nat) :
    (findTodo s.todos todo_id = none →
      get_todo todo_id s = ⟨.errJson "Todo not found", 404⟩ ∧
      (∀ body, update_todo todo_id body s =
        .ok (⟨.errJson "Todo not found", 404⟩, s)) ∧
      delete_todo todo_id s = (⟨.errJson "Todo not found", 404⟩, s)) ∧
    (∀ t, findTodo s.todos todo_id = some t →
      get_todo todo_id s = ⟨.todoJson t, 200⟩ ∧
      (∀ d, ∃ r s2, update_todo todo_id (.dict d) s = .ok (r, s2) ∧ r.status = 200) ∧
      (delete_todo todo_id s).1.status = 200) ∧
    ((get_todo todo_id s).status = 404 → findTodo s.todos todo_id = none) ∧
    (∀ body r s2, update_todo todo_id body s = .ok (r, s2) → r.status = 404 →
      findTodo s.todos todo_id = none ∧ s2 = s) ∧
    ((delete_todo todo_id s).1.status = 404 → findTodo s.todos todo_id = none) := by
  refine ⟨?_, ?_, ?_, ?_, ?_⟩
  · intro h
    exact ⟨by simp [get_todo, h], fun body => update_todo_not_found _ _ _ h,
      by simp [delete_todo, h]⟩
  · intro t h
    refine ⟨by simp [get_todo, h], fun d => ?_, by simp [delete_todo, h]⟩
    rcases update_todo_dict_eq todo_id d s t h with ⟨l2, h1, -, -, -, -⟩
    exact ⟨_, _, h1, rfl⟩
  · intro h
    rcases hf : findTodo s.todos todo_id with _ | t
    · rfl
    · simp [get_todo, hf] at h
  · intro body r s2 hok h404
    rcases hf : findTodo s.todos todo_id with _ | t
    · rw [update_todo_not_found _ _ _ hf] at hok
      injection hok with h3
      exact ⟨rfl, (congrArg Prod.snd h3).symm⟩
    · exfalso
      cases body with
      | fault => simp [update_todo, hf] at hok
      | noBody => simp [update_todo, hf] at hok
      | dict d =>
          rcases update_todo_dict_eq todo_id d s t hf with ⟨l2, h1, -, -, -, -⟩
          rw [h1] at hok
          injection hok with h3
          have h2 : (⟨.todoJson (applyFields d t), 200⟩ : Response) = r :=
            congrArg Prod.fst h3
          rw [← h2] at h404
          simp at h404
  · intro h
    rcases hf : findTodo s.todos todo_id with _ | t
    · rfl
    · simp [delete_todo, hf] at h

/-- Witness for `C5_not_found`: id 9999 is absent from the seeded store
(all three handlers answer 404 leaving the state alone), id 1 is present
(`get_todo` answers 200). -/
theorem C5_not_found_witness :
    (get_todo 9999 sEx = ⟨.errJson "Todo not found", 404⟩ ∧
      (∀ body, update_todo 9999 body sEx =
        .ok (⟨.errJson "Todo not found", 404⟩, sEx)) ∧
      delete_todo 9999 sEx = (⟨.errJson "Todo not found", 404⟩, sEx)) ∧
    get_todo 1 sEx =
      ⟨.todoJson ⟨1, .str "Learn GitHub Actions", .bool false, dEx.isoformat⟩, 200⟩ :=
  ⟨(C5_not_found sEx 9999).1 rfl,
    (((C5_not_found sEx 1).2.1) ⟨1, .str "Learn GitHub Actions", .bool false, dEx.isoformat⟩
      rfl).1⟩

/-! ### Claim C6 -/

theorem isoformat_length_pos (dt : Datetime) : 0 < dt.isoformat.length := by
  unfold Datetime.isoformat
  simp only [String.length_append]
  have h1 : ("-" : String).length = 1 := rfl
  omega

theorem isoformat_ne_empty (dt : Datetime) : dt.isoformat ≠ "" := by
  intro h
  have hp := isoformat_length_pos dt
  rw [h] at hp
  simp at hp

theorem sEx_wf : StoreWF sEx := by
  refine ⟨?_, ?_⟩
  · intro p hp
    simp only [sEx, initialState, List.mem_cons, List.not_mem_nil, or_false] at hp
    rcases hp with rfl | rfl <;> simp [sEx, initialState]
  · simp [sEx, initialState]

theorem create_todo_success (now : Datetime) (d : List (String × Json)) (s : AppState)
    (hk : hasKey d "title" = true) :
    create_todo now (.dict d) s =
      .ok (⟨.todoJson ⟨s.next_id, getVal d "title", .bool false, now.isoformat⟩, 201⟩,
        ⟨s.todos ++ [(s.next_id, ⟨s.next_id, getVal d "title", .bool false, now.isoformat⟩)],
          s.next_id + 1⟩) := by
  have hne : d.isEmpty = false := by
    cases d with
    | nil => simp [hasKey] at hk
    | cons p l => rfl
  simp [create_todo, hk, hne]

/-- Claim C6: creating a todo from a valid (non-empty) title succeeds with
status 201; the returned record carries that title verbatim,
`completed = false`, and a non-empty `created_at` string (the isoformat
timestamp); and an immediate `get_todo` on the returned id answers 200
with that same record. -/
theorem C6_create_then_get (now : Datetime) (s : AppState) (title : String)
    (hWF : StoreWF s) (_hv : title ≠ "") :
    ∃ t s2, create_todo now (.dict [("title", .str title)]) s =
        .ok (⟨.todoJson t, 201⟩, s2) ∧
      t.title = .str title ∧ t.completed = .bool false ∧
      t.created_at = now.isoformat ∧ t.created_at ≠ "" ∧
      get_todo t.id s2 = ⟨.todoJson t, 200⟩ := by
  have hc := create_todo_success now [("title", .str title)] s rfl
  have hg : getVal [("title", .str title)] "title" = .str title := rfl
  rw [hg] at hc
  refine ⟨⟨s.next_id, .str title, .bool false, now.isoformat⟩,
    ⟨s.todos ++ [(s.next_id, ⟨s.next_id, .str title, .bool false, now.isoformat⟩)],
      s.next_id + 1⟩,
    hc, rfl, rfl, rfl, isoformat_ne_empty now, ?_⟩
  have hfresh : ∀ p ∈ s.todos, p.1 ≠ s.next_id :=
    fun p hp => Nat.ne_of_lt ((hWF.1 p hp).1)
  simp [get_todo, findTodo_append_fresh _ _ _ hfresh]

/-- Witness for `C6_create_then_get`: title `"Write docs"` at the seeded
state. -/
theorem C6_create_then_get_witness :
    ∃ t s2, create_todo dEx (.dict [("title", .str "Write docs")]) sEx =
        .ok (⟨.todoJson t, 201⟩, s2) ∧
      t.title = .str "Write docs" ∧ t.completed = .bool false ∧
      t.created_at = dEx.isoformat ∧ t.created_at ≠ "" ∧
      get_todo t.id s2 = ⟨.todoJson t, 200⟩ :=
  C6_create_then_get dEx sEx "Write docs" sEx_wf (by decide)

/-! ### Claim C7 -/

/-- Claim C7: deleting a present id returns the removed record with
status 200 and removes exactly that record: afterwards `get_todo` on the
id answers 404, `get_todos` lists only records with other ids (so the
removed record is gone), every other record is unchanged, and the id
counter is untouched. -/
theorem C7_delete (s : AppState) (todo_id : Nat) (t : Todo) (hWF : StoreWF s)
    (h : findTodo s.todos todo_id = some t) :
    ∃ s2 : AppState, delete_todo todo_id s = (⟨.todoJson t, 200⟩, s2) ∧
      findTodo s2.todos todo_id = none ∧
      get_todo todo_id s2 = ⟨.errJson "Todo not found", 404⟩ ∧
      get_todos s2 = ⟨.listJson (s2.todos.map (fun p => p.2)), 200⟩ ∧
      (∀ u ∈ s2.todos.map (fun p => p.2), u.id ≠ todo_id) ∧
      t ∉ s2.todos.map (fun p => p.2) ∧
      (∀ j, j ≠ todo_id → findTodo s2.todos j = findTodo s.todos j) ∧
      s2.next_id = s.next_id := by
  have ht_id : t.id = todo_id := (hWF.1 _ (findTodo_mem _ _ _ h).1).2
  have hgone : findTodo (eraseEntry s.todos todo_id) todo_id = none :=
    findTodo_eraseEntry_self _ _ hWF.2
  have hids : ∀ u ∈ (eraseEntry s.todos todo_id).map (fun p => p.2), u.id ≠ todo_id := by
    intro u hu
    rcases List.mem_map.mp hu with ⟨p, hp, rfl⟩
    have hsub : p ∈ s.todos := List.eraseP_subset _ hp
    have hid : p.2.id = p.1 := (hWF.1 p hsub).2
    intro hcontra
    have hkey : p.1 ∈ (eraseEntry s.todos todo_id).map (fun q => q.1) :=
      List.mem_map_of_mem _ hp
    rcases findTodo_isSome_of_mem _ _ hkey with ⟨u2, hu2⟩
    rw [← hid, hcontra] at hu2
    rw [hgone] at hu2
    exact Option.noConfusion hu2
  refine ⟨⟨eraseEntry s.todos todo_id, s.next_id⟩, by simp [delete_todo, h], hgone,
    by simp [get_todo, hgone], rfl, hids, ?_,
    fun j hj => findTodo_eraseEntry_ne _ _ _ hj, rfl⟩
  intro hmem
  exact hids t hmem ht_id

/-- Witness for `C7_delete`: deleting seeded record 1. -/
theorem C7_delete_witness :
    ∃ s2 : AppState, delete_todo 1 sEx =
        (⟨.todoJson ⟨1, .str "Learn GitHub Actions", .bool false, dEx.isoformat⟩, 200⟩, s2) ∧
      findTodo s2.todos 1 = none ∧
      get_todo 1 s2 = ⟨.errJson "Todo not found", 404⟩ ∧
      get_todos s2 = ⟨.listJson (s2.todos.map (fun p => p.2)), 200⟩ ∧
      (∀ u ∈ s2.todos.map (fun p => p.2), u.id ≠ 1) ∧
      (⟨1, .str "Learn GitHub Actions", .bool false, dEx.isoformat⟩ : Todo) ∉
        s2.todos.map (fun p => p.2) ∧
      (∀ j, j ≠ 1 → findTodo s2.todos j = findTodo sEx.todos j) ∧
      s2.next_id = sEx.next_id :=
  C7_delete sEx 1 ⟨1, .str "Learn GitHub Actions", .bool false, dEx.isoformat⟩ sEx_wf rfl

/-! ### Claim C8 -/

/-- Claim C8: a handler failure that is neither the validation nor the
not-found case — here, the parse fault of a malformed JSON body inside
`update_todo` on a present id (and in `create_todo`), or the `TypeError`
on a `None` body — is not answered by the handler itself (`Except.error`),
and the outermost boundary converts every such failure into the registered
500 handler's response, body `error = "Internal server error"`, leaving
the store unchanged, instead of crashing. -/
theorem C8_internal_error (s : AppState) (todo_id : Nat) (t : Todo) (now : Datetime)
    (h : findTodo s.todos todo_id = some t) :
    update_todo todo_id .fault s = .error () ∧
    dispatch s (update_todo todo_id .fault s) =
      (⟨.errJson "Internal server error", 500⟩, s) ∧
    dispatch s (update_todo todo_id .noBody s) =
      (⟨.errJson "Internal server error", 500⟩, s) ∧
    dispatch s (create_todo now .fault s) =
      (⟨.errJson "Internal server error", 500⟩, s) ∧
    (∀ r : Except Unit (Response × AppState), r = .error () →
      dispatch s r = (server_error, s)) :=
  ⟨by simp [update_todo, h], by simp [update_todo, h, dispatch, server_error],
    by simp [update_todo, h, dispatch, server_error],
    by simp [create_todo, dispatch, server_error],
    fun r hr => by simp [hr, dispatch]⟩

/-- Witness for `C8_internal_error`: a malformed body aimed at seeded
record 1. -/
theorem C8_internal_error_witness :
    update_todo 1 .fault sEx = .error () ∧
    dispatch sEx (update_todo 1 .fault sEx) =
      (⟨.errJson "Internal server error", 500⟩, sEx) ∧
    dispatch sEx (update_todo 1 .noBody sEx) =
      (⟨.errJson "Internal server error", 500⟩, sEx) ∧
    dispatch sEx (create_todo dEx .fault sEx) =
      (⟨.errJson "Internal server error", 500⟩, sEx) ∧
    (∀ r : Except Unit (Response × AppState), r = .error () →
      dispatch sEx r = (server_error, sEx)) :=
  C8_internal_error sEx 1 ⟨1, .str "Learn GitHub Actions", .bool false, dEx.isoformat⟩
    dEx rfl

/-! ### Claim C2 -/

/-- Claim C2: `get_stats` answers 200 and computes, fresh from the current
store: `total` = number of records, `completed` = number of records whose
`completed` value counts as set (for stores whose `completed` values are
booleans — the spec's data model — this is exactly the number of records
with the flag `true`), `pending = total - completed`, and
`completion_rate = completed / total * 100` for `total > 0`, else `0`.
From the seeded state, after creating one more todo and marking exactly
record 1 completed, it returns `total = 3`, `completed = 1`,
`pending = 2`, `completion_rate = 100/3 ≈ 33.33` (within `0.01`). -/
theorem C2_stats (s : AppState) :
    get_stats s = ⟨.statsJson s.todos.length
        (s.todos.countP (fun p => p.2.completed.truthy))
        (s.todos.length - s.todos.countP (fun p => p.2.completed.truthy))
        (if s.todos.length > 0 then
            ((s.todos.countP (fun p => p.2.completed.truthy) : ℚ) /
              (s.todos.length : ℚ)) * 100
          else 0), 200⟩ ∧
    ((∀ p ∈ s.todos, ∃ b, p.2.completed = .bool b) →
      s.todos.countP (fun p => p.2.completed.truthy) =
        s.todos.countP (fun p => p.2.completed == .bool true)) ∧
    get_stats (run sEx [.create dEx (.dict [("title", .str "Deploy app")]),
        .update 1 (.dict [("completed", .bool true)])]) =
      ⟨.statsJson 3 1 2 (100 / 3), 200⟩ ∧
    |(100 : ℚ) / 3 - 3333 / 100| < 1 / 100 := by
  refine ⟨rfl, ?_, ?_, by rw [abs_lt]; constructor <;> norm_num⟩
  · intro hb
    apply List.countP_congr
    intro p hp
    rcases hb p hp with ⟨b, hpb⟩
    cases b <;> simp [hpb, Json.truthy]
  · have h1 : run sEx [.create dEx (.dict [("title", .str "Deploy app")]),
        .update 1 (.dict [("completed", .bool true)])] =
      ⟨[(1, ⟨1, .str "Learn GitHub Actions", .bool true, dEx.isoformat⟩),
        (2, ⟨2, .str "Build CI/CD pipeline", .bool false, dEx.isoformat⟩),
        (3, ⟨3, .str "Deploy app", .bool false, dEx.isoformat⟩)], 4⟩ := rfl
    rw [h1]
    have hc : ([(1, (⟨1, .str "Learn GitHub Actions", .bool true, dEx.isoformat⟩ : Todo)),
        (2, ⟨2, .str "Build CI/CD pipeline", .bool false, dEx.isoformat⟩),
        (3, ⟨3, .str "Deploy app", .bool false, dEx.isoformat⟩)].countP
          (fun p => p.2.completed.truthy)) = 1 := rfl
    simp only [get_stats, hc]
    norm_num [Response.mk.injEq, RespBody.statsJson.injEq]

/-- Witness for `C2_stats`: the boolean-model hypothesis discharged at the
seeded state. -/
theorem C2_stats_witness :
    sEx.todos.countP (fun p => p.2.completed.truthy) =
      sEx.todos.countP (fun p => p.2.completed == .bool true) :=
  (C2_stats sEx).2.1 (by
    intro p hp
    simp only [sEx, initialState, List.mem_cons, List.not_mem_nil, or_false] at hp
    rcases hp with rfl | rfl <;> exact ⟨false, rfl⟩)

/-! ### Claim C3 -/

theorem stepEv_next_id_le (s : AppState) (op : Op) :
    s.next_id ≤ (stepEv s op).1.next_id := by
  cases op with
  | create now body =>
      cases body with
      | fault => simp [stepEv, create_todo]
      | noBody => simp [stepEv, create_todo]
      | dict d =>
          cases hK : hasKey d "title" with
          | false => simp [stepEv, create_todo, hK]
          | true =>
              cases hI : d.isEmpty with
              | true => simp [stepEv, create_todo, hI]
              | false => simp [stepEv, create_todo, hI, hK]
  | update i body =>
      rcases hf : findTodo s.todos i with _ | t
      · simp [stepEv, update_todo_not_found _ _ _ hf]
      · cases body with
        | fault => simp [stepEv, update_todo, hf]
        | noBody => simp [stepEv, update_todo, hf]
        | dict d =>
            rcases update_todo_dict_eq i d s t hf with ⟨l2, h1, -, -, -, -⟩
            simp [stepEv, h1]
  | delete i =>
      rcases hf : findTodo s.todos i with _ | t <;> simp [stepEv, delete_todo, hf]
  | getOne i => simp [stepEv]
  | getAll => simp [stepEv]
  | stats => simp [stepEv]

theorem inv_triv (s : AppState) (evs : List Event)
    (hWF : StoreWF s) (hEv : ∀ e ∈ evs, evId e < s.next_id)
    (hFr : FreshAssign evs) :
    StoreWF s ∧ (∀ e ∈ evs ++ ([] : List Event), evId e < s.next_id) ∧
      FreshAssign (evs ++ []) := by
  simpa using ⟨hWF, hEv, hFr⟩

theorem stepEv_inv (s : AppState) (op : Op) (evs : List Event)
    (hWF : StoreWF s) (hEv : ∀ e ∈ evs, evId e < s.next_id)
    (hFr : FreshAssign evs) :
    StoreWF (stepEv s op).1 ∧
    (∀ e ∈ evs ++ (stepEv s op).2, evId e < (stepEv s op).1.next_id) ∧
    FreshAssign (evs ++ (stepEv s op).2) := by
  cases op with
  | create now body =>
      cases body with
      | fault =>
          have hstep : stepEv s (.create now .fault) = (s, []) := by
            simp [stepEv, create_todo]
          rw [hstep]
          exact inv_triv s evs hWF hEv hFr
      | noBody =>
          have hstep : stepEv s (.create now .noBody) = (s, []) := by
            simp [stepEv, create_todo]
          rw [hstep]
          exact inv_triv s evs hWF hEv hFr
      | dict d =>
          cases hK : hasKey d "title" with
          | false =>
              have hstep : stepEv s (.create now (.dict d)) = (s, []) := by
                simp [stepEv, create_todo, hK]
              rw [hstep]
              exact inv_triv s evs hWF hEv hFr
          | true =>
              cases hI : d.isEmpty with
              | true =>
                  have hstep : stepEv s (.create now (.dict d)) = (s, []) := by
                    simp [stepEv, create_todo, hI]
                  rw [hstep]
                  exact inv_triv s evs hWF hEv hFr
              | false =>
                  have hstep : stepEv s (.create now (.dict d)) =
                      (⟨s.todos ++ [(s.next_id,
                          ⟨s.next_id, getVal d "title", .bool false, now.isoformat⟩)],
                        s.next_id + 1⟩,
                       [.assigned s.next_id]) := by
                    simp [stepEv, create_todo, hI, hK]
                  rw [hstep]
                  refine ⟨⟨?_, ?_⟩, ?_, ?_⟩
                  · intro p hp
                    rcases List.mem_append.mp hp with hp | hp
                    · rcases hWF.1 p hp with ⟨h1, h2⟩
                      exact ⟨Nat.lt_succ_of_lt h1, h2⟩
                    · rw [List.mem_singleton.mp hp]
                      exact ⟨Nat.lt_succ_self _, rfl⟩
                  · rw [List.map_append, List.nodup_append]
                    refine ⟨hWF.2, List.nodup_singleton _, ?_⟩
                    intro a ha hb
                    rcases List.mem_map.mp ha with ⟨p, hp, rfl⟩
                    have h1 : p.1 < s.next_id := (hWF.1 p hp).1
                    have h2 : p.1 = s.next_id := by simpa using hb
                    omega
                  · intro e he
                    rcases List.mem_append.mp he with he | he
                    · exact Nat.lt_succ_of_lt (hEv e he)
                    · rw [List.mem_singleton.mp he]
                      exact Nat.lt_succ_self _
                  · refine List.pairwise_append.mpr ⟨hFr, by simp, ?_⟩
                    intro e he e2 he2
                    rw [List.mem_singleton.mp he2]
                    intro _
                    exact hEv e he
  | update i body =>
      rcases hf : findTodo s.todos i with _ | t
      · have hstep : stepEv s (.update i body) = (s, []) := by
          simp [stepEv, update_todo_not_found _ _ _ hf]
        rw [hstep]
        exact inv_triv s evs hWF hEv hFr
      · cases body with
        | fault =>
            have hstep : stepEv s (.update i .fault) = (s, []) := by
              simp [stepEv, update_todo, hf]
            rw [hstep]
            exact inv_triv s evs hWF hEv hFr
        | noBody =>
            have hstep : stepEv s (.update i .noBody) = (s, []) := by
              simp [stepEv, update_todo, hf]
            rw [hstep]
            exact inv_triv s evs hWF hEv hFr
        | dict d =>
            rcases update_todo_dict_eq i d s t hf with ⟨l2, h1, -, -, hkeys, hent⟩
            have hstep : stepEv s (.update i (.dict d)) = (⟨l2, s.next_id⟩, []) := by
              simp [stepEv, h1]
            rw [hstep]
            refine ⟨⟨hent s.next_id hWF.1, ?_⟩, by simpa using hEv, by simpa using hFr⟩
            rw [hkeys]
            exact hWF.2
  | delete i =>
      rcases hf : findTodo s.todos i with _ | t
      · have hstep : stepEv s (.delete i) = (s, []) := by
          simp [stepEv, delete_todo, hf]
        rw [hstep]
        exact inv_triv s evs hWF hEv hFr
      · have hstep : stepEv s (.delete i) =
            (⟨eraseEntry s.todos i, s.next_id⟩, [.deleted i]) := by
          simp [stepEv, delete_todo, hf]
        rw [hstep]
        have hi_lt : i < s.next_id := (hWF.1 _ (findTodo_mem _ _ _ hf).1).1
        refine ⟨⟨?_, ?_⟩, ?_, ?_⟩
        · intro p hp
          exact hWF.1 p (List.eraseP_subset _ hp)
        · exact List.Nodup.sublist ((List.eraseP_sublist _).map _) hWF.2
        · intro e he
          rcases List.mem_append.mp he with he | he
          · exact hEv e he
          · rw [List.mem_singleton.mp he]
            exact hi_lt
        · refine List.pairwise_append.mpr ⟨hFr, by simp, ?_⟩
          intro e he e2 he2
          rw [List.mem_singleton.mp he2]
          rintro ⟨b, hb⟩
          exact absurd hb (by simp)
  | getOne i =>
      exact inv_triv s evs hWF hEv hFr
  | getAll =>
      exact inv_triv s evs hWF hEv hFr
  | stats =>
      exact inv_triv s evs hWF hEv hFr

theorem runEv_inv (ops : List Op) (s : AppState) (evs : List Event)
    (hWF : StoreWF s) (hEv : ∀ e ∈ evs, evId e < s.next_id)
    (hFr : FreshAssign evs) :
    StoreWF (runEv s ops).1 ∧
    (∀ e ∈ evs ++ (runEv s ops).2, evId e < (runEv s ops).1.next_id) ∧
    FreshAssign (evs ++ (runEv s ops).2) := by
  induction ops generalizing s evs with
  | nil => simpa [runEv] using ⟨hWF, hEv, hFr⟩
  | cons op ops ih =>
      rcases stepEv_inv s op evs hWF hEv hFr with ⟨h1, h2, h3⟩
      have h4 := ih (stepEv s op).1 (evs ++ (stepEv s op).2) h1 h2 h3
      simpa [runEv, List.append_assoc] using h4

theorem runEv_next_id_le (ops : List Op) (s : AppState) :
    s.next_id ≤ (runEv s ops).1.next_id := by
  induction ops generalizing s with
  | nil => simp [runEv]
  | cons op ops ih =>
      calc s.next_id ≤ (stepEv s op).1.next_id := stepEv_next_id_le s op
        _ ≤ (runEv (stepEv s op).1 ops).1.next_id := ih (stepEv s op).1
        _ = (runEv s (op :: ops)).1.next_id := by simp [runEv]

theorem initialState_wf (t1 t2 : Datetime) : StoreWF (initialState t1 t2) := by
  refine ⟨?_, ?_⟩
  · intro p hp
    simp only [initialState, List.mem_cons, List.not_mem_nil, or_false] at hp
    rcases hp with rfl | rfl <;> simp [initialState]
  · simp [initialState]

theorem assignedIds_pairwise_lt (evs : List Event) (h : FreshAssign evs) :
    (assignedIds evs).Pairwise (fun a b => a < b) := by
  rw [assignedIds, List.pairwise_filterMap]
  refine List.Pairwise.imp ?_ h
  intro e e2 hR b hb b2 hb2
  cases e with
  | assigned i =>
      cases e2 with
      | assigned j =>
          simp only [Option.mem_def, Option.some.injEq] at hb hb2
          subst hb
          subst hb2
          exact hR ⟨_, rfl⟩
      | deleted j => simp at hb2
  | deleted i => simp at hb

theorem no_reuse_of_fresh (evs : List Event) (h : FreshAssign evs) :
    evs.Pairwise (fun e e2 => ∀ i j, e = .deleted i → e2 = .assigned j → i ≠ j) := by
  refine List.Pairwise.imp ?_ h
  intro e e2 hR i j hi hj
  subst hi
  subst hj
  have hlt := hR ⟨j, rfl⟩
  simp only [evId] at hlt
  omega

/-- Claim C3: the id counter never decreases (at any state, over any
single request), and along every request sequence from the seeded state:
the ids assigned by successive successful creates strictly increase (hence
each assigned id is unique), and an id removed by a delete is never
assigned by any later create. -/
theorem C3_id_monotonicity (t1 t2 : Datetime) (ops : List Op) :
    (assignedIds (runEv (initialState t1 t2) ops).2).Pairwise (fun a b => a < b) ∧
    (runEv (initialState t1 t2) ops).2.Pairwise
      (fun e e2 => ∀ i j, e = .deleted i → e2 = .assigned j → i ≠ j) ∧
    (∀ s op, s.next_id ≤ (stepEv s op).1.next_id) ∧
    (initialState t1 t2).next_id ≤ (runEv (initialState t1 t2) ops).1.next_id := by
  have h := runEv_inv ops (initialState t1 t2) [] (initialState_wf t1 t2)
    (by intro e he; simp at he) List.Pairwise.nil
  rcases h with ⟨-, -, hFr⟩
  rw [List.nil_append] at hFr
  exact ⟨assignedIds_pairwise_lt _ hFr, no_reuse_of_fresh _ hFr,
    fun s op => stepEv_next_id_le s op, runEv_next_id_le ops _⟩
